import Mathlib

/-!
Verification of the `plugin-constraints` tau-prolog bridge
(`src/packages/plugin-constraints/sources/tauModule.ts` together with the
term-building helpers of `util` in `src/unnamed/part_001`).

The bridge's native predicates are embedded shallowly: each native callback
becomes a Lean function from its (already dereferenced) argument terms and the
session's registered project to a `NativeResult` describing the observable
effect of the callback — throwing an instantiation error, throwing the
host-binding assertion, succeeding deterministically, prepending a list of
alternative goals (`prependGoals`), or returning without effect (failure).
The project snapshot and the solution semantics of the prepended `=/2` goals
are modelled from the spec (§3, §4.1–§4.3), since the engine (tau-prolog) and
the project data model (`@yarnpkg/core`) are outside the bridge's sources.
-/

/-- Terms of the embedded logic language: atoms, variables, compound terms
and numbers, mirroring tau-prolog's `Term` (zero-arg / with args) and `Var`. -/
inductive PlTerm where
  | atom (id : String)
  | var (id : String)
  | comp (id : String) (args : List PlTerm)
  | num (n : Int)
deriving Repr

mutual

/-- Decidable equality on terms, written out by hand (nested inductive). -/
def decEqPlTerm : (a b : PlTerm) → Decidable (a = b)
  | .atom x, .atom y =>
      if h : x = y then .isTrue (by rw [h])
      else .isFalse (fun hh => h (PlTerm.atom.inj hh))
  | .var x, .var y =>
      if h : x = y then .isTrue (by rw [h])
      else .isFalse (fun hh => h (PlTerm.var.inj hh))
  | .num x, .num y =>
      if h : x = y then .isTrue (by rw [h])
      else .isFalse (fun hh => h (PlTerm.num.inj hh))
  | .comp f as, .comp g bs =>
      match String.decEq f g, decEqPlTermList as bs with
      | .isTrue h1, .isTrue h2 => .isTrue (by rw [h1, h2])
      | .isFalse h1, _ => .isFalse (fun hh => h1 (PlTerm.comp.inj hh).1)
      | _, .isFalse h2 => .isFalse (fun hh => h2 (PlTerm.comp.inj hh).2)
  | .atom _, .var _ => .isFalse (fun h => PlTerm.noConfusion h)
  | .atom _, .comp _ _ => .isFalse (fun h => PlTerm.noConfusion h)
  | .atom _, .num _ => .isFalse (fun h => PlTerm.noConfusion h)
  | .var _, .atom _ => .isFalse (fun h => PlTerm.noConfusion h)
  | .var _, .comp _ _ => .isFalse (fun h => PlTerm.noConfusion h)
  | .var _, .num _ => .isFalse (fun h => PlTerm.noConfusion h)
  | .comp _ _, .atom _ => .isFalse (fun h => PlTerm.noConfusion h)
  | .comp _ _, .var _ => .isFalse (fun h => PlTerm.noConfusion h)
  | .comp _ _, .num _ => .isFalse (fun h => PlTerm.noConfusion h)
  | .num _, .atom _ => .isFalse (fun h => PlTerm.noConfusion h)
  | .num _, .var _ => .isFalse (fun h => PlTerm.noConfusion h)
  | .num _, .comp _ _ => .isFalse (fun h => PlTerm.noConfusion h)

/-- Decidable equality on term lists, mutual with `decEqPlTerm`. -/
def decEqPlTermList : (as bs : List PlTerm) → Decidable (as = bs)
  | [], [] => .isTrue rfl
  | [], _ :: _ => .isFalse (fun h => List.noConfusion h)
  | _ :: _, [] => .isFalse (fun h => List.noConfusion h)
  | a :: as, b :: bs =>
      match decEqPlTerm a b, decEqPlTermList as bs with
      | .isTrue h1, .isTrue h2 => .isTrue (by rw [h1, h2])
      | .isFalse h1, _ => .isFalse (fun hh => h1 (List.cons.inj hh).1)
      | _, .isFalse h2 => .isFalse (fun hh => h2 (List.cons.inj hh).2)

end

instance : DecidableEq PlTerm := decEqPlTerm

/-- `pl.type.is_atom`: a `Term` with no arguments. -/
def isAtom : PlTerm → Bool
  | .atom _ => true
  | _ => false

/-- `pl.type.is_variable`. -/
def isVariable : PlTerm → Bool
  | .var _ => true
  | _ => false

/-- `termEquals` from `util`: builds the goal `=(lhs, rhs)` with the
right-hand side an atom built from the given string. -/
def termEquals (lhs : PlTerm) (rhs : String) : PlTerm :=
  .comp "=" [lhs, .atom rhs]

/-- `and` from `util`, restricted to two conjuncts (the bridge's uses):
the binary comma struct. -/
def andGoal (first second : PlTerm) : PlTerm :=
  .comp "," [first, second]

/-- A substitution produced while solving the bridge's prepended goals:
those goals only ever bind variables to ground atoms, so a binding maps a
variable name to the atom's text.  Modelled from the spec (§3). -/
def Binding := List (String × String)
deriving DecidableEq, Repr

/-- Dereference a term one step under a binding (the spec's `walk`, §4.1;
bindings here map variables directly to ground atoms, so one step suffices). -/
def walkT (b : Binding) : PlTerm → PlTerm
  | .var x =>
      match List.lookup x (b : List (String × String)) with
      | some s => .atom s
      | none => .var x
  | t => t

/-- Modelled from the spec (§4.1–§4.2): solutions, in order, of one goal term
as emitted by the bridge — `=/2` equations whose right-hand side is a ground
atom, and binary `,/2` conjunctions of such equations, solved left to right. -/
def solveGoal : Binding → PlTerm → List Binding
  | b, .comp "," [g1, g2] => (solveGoal b g1).flatMap fun b1 => solveGoal b1 g2
  | b, .comp "=" [lhs, rhs] =>
      match walkT b lhs, walkT b rhs with
      | .atom x, .atom y => if x = y then [b] else []
      | .var x, .atom s => [((x, s) :: b : List (String × String))]
      | _, _ => []
  | _, _ => []

/-- A dependency descriptor: stringified ident and version range.
Modelled from the spec (§3: "three dependency partitions each mapping
identifier → {identifier, version range}"). -/
structure Dependency where
  ident : String
  range : String
deriving Repr, DecidableEq

/-- Raw manifest values (JSON), for `workspace.manifest.raw`.
Modelled from the spec (§3: "raw manifest fields"). -/
inductive Json where
  | null
  | bool (b : Bool)
  | num (n : Int)
  | str (s : String)
  | arr (elems : List Json)
  | obj (fields : List (String × Json))
deriving Repr

mutual

/-- JavaScript `String(value)` on a JSON value, as used by
`workspace_field/3` to produce the field's string form. -/
def jsString : Json → String
  | .null => "null"
  | .bool b => cond b "true" "false"
  | .num n => toString n
  | .str s => s
  | .obj _ => "[object Object]"
  | .arr es => String.intercalate "," (jsArrParts es)

/-- Array elements under JavaScript `Array.prototype.toString`:
`null` renders empty, other elements render via `String(·)`. -/
def jsArrParts : List Json → List String
  | [] => []
  | .null :: rest => "" :: jsArrParts rest
  | e :: rest => jsString e :: jsArrParts rest

end

/-- lodash `get` over an already split dotted path. -/
def getPathSegs : List String → Json → Option Json
  | [], v => some v
  | k :: ks, .obj fields =>
      match List.lookup k fields with
      | some v => getPathSegs ks v
      | none => none
  | _ :: _, _ => none

/-- Split a dotted path into its segments (lodash's path conversion for
plain dotted field names). -/
def splitPathAux : List Char → List Char → List String
  | [], acc => [String.mk acc.reverse]
  | c :: cs, acc =>
      if c = '.' then String.mk acc.reverse :: splitPathAux cs []
      else splitPathAux cs (c :: acc)

/-- Split a dotted field name on `.`. -/
def splitPath (s : String) : List String :=
  splitPathAux s.data []

/-- lodash `get(manifestRaw, fieldName)` with a dotted field name. -/
def getPath (j : Json) (path : String) : Option Json :=
  getPathSegs (splitPath path) j

/-- A workspace record of the project snapshot.  Modelled from the spec
(§3: "relative path, canonical identifier, raw manifest fields, three
dependency partitions").  `ident` is `structUtils.stringifyIdent(locator)`. -/
structure Workspace where
  relativeCwd : String
  ident : String
  manifestRaw : Json
  dependencies : Option (List Dependency)
  devDependencies : Option (List Dependency)
  peerDependencies : Option (List Dependency)

/-- The read-only project snapshot: its workspaces in registration order.
Modelled from the spec (§6: "ordered workspace enumeration"). -/
structure Project where
  workspaces : List Workspace

/-- `project.tryWorkspaceByCwd`: lookup-by-path, `none` when absent.
Modelled from the spec (§6: "lookup-by-path"). -/
def tryWorkspaceByCwd (p : Project) (cwd : String) : Option Workspace :=
  p.workspaces.find? (fun w => w.relativeCwd == cwd)

/-- `project.workspacesByIdent.get(...)`: one-to-many lookup-by-identifier,
`none` when no workspace has the identifier.  Modelled from the spec
(§6: "one-to-many lookup-by-identifier"). -/
def workspacesByIdent (p : Project) (ident : String) : Option (List Workspace) :=
  match p.workspaces.filter (fun w => w.ident == ident) with
  | [] => none
  | ws => some ws

/-- `workspaceInfo.manifest[dependencyType.id]`: the three `DependencyType`
enum values index the manifest's typed dependency maps; any other string
indexes nothing (`undefined`, caught by the `== null` check). -/
def manifestDeps (w : Workspace) (dtype : String) : Option (List Dependency) :=
  if dtype = "dependencies" then w.dependencies
  else if dtype = "devDependencies" then w.devDependencies
  else if dtype = "peerDependencies" then w.peerDependencies
  else none

/-- The three facts of `dependency_type/1`, in declaration order. -/
def dependencyTypeFacts : List String :=
  ["dependencies", "devDependencies", "peerDependencies"]

/-- Observable effect of one native-callback invocation:
`hostError` is the `getProject` assertion throw, `instErr` is
`thread.throwError(pl.error.instantiation(...))`, `assertFail` is the
non-null assertion on `getWorkspaceByCwd` failing, `evalError` a throw out of
the sandboxed evaluator, `success` is `thread.success(point)`, `branches` is
`prependGoals` with the listed alternative goals, and `failure` is a plain
return with no effect. -/
inductive NativeResult where
  | hostError
  | instErr
  | assertFail
  | evalError
  | success
  | failure
  | branches (goals : List PlTerm)
deriving Repr, DecidableEq

/-- The native callback of `workspace/1`.  `proj` is the result of the
session lookup consulted by `getProject` (which runs before any argument
check in this callback). -/
def workspace1 (proj : Option Project) (workspaceCwd : PlTerm) : NativeResult :=
  match proj with
  | none => .hostError
  | some project =>
    match workspaceCwd with
    | .atom cwd =>
        if (tryWorkspaceByCwd project cwd).isSome then .success else .failure
    | .var _ =>
        .branches (project.workspaces.map fun w =>
          termEquals workspaceCwd w.relativeCwd)
    | _ => .instErr

/-- The native callback of `workspace_ident/2` (`getProject` runs first;
with a bound path the instantiation check on the ident argument precedes the
missing-workspace check). -/
def workspace_ident2 (proj : Option Project)
    (workspaceCwd workspaceIdent : PlTerm) : NativeResult :=
  match proj with
  | none => .hostError
  | some project =>
    match workspaceCwd with
    | .atom cwd =>
        match workspaceIdent with
        | .atom _ | .var _ =>
            match tryWorkspaceByCwd project cwd with
            | none => .failure
            | some workspace =>
                .branches [termEquals workspaceIdent workspace.ident]
        | _ => .instErr
    | .var _ =>
        match workspaceIdent with
        | .atom ident =>
            match workspacesByIdent project ident with
            | none => .failure
            | some workspaces =>
                .branches (workspaces.map fun w =>
                  termEquals workspaceCwd w.relativeCwd)
        | .var _ =>
            .branches (project.workspaces.map fun w =>
              andGoal (termEquals workspaceCwd w.relativeCwd)
                      (termEquals workspaceIdent w.ident))
        | _ => .instErr
    | _ => .instErr

/-- The native callback of `workspace_field/3`: the instantiation guard on
path and field name runs before `getProject`. -/
def workspace_field3 (proj : Option Project)
    (workspaceCwd fieldName fieldValue : PlTerm) : NativeResult :=
  match workspaceCwd, fieldName with
  | .atom cwd, .atom fname =>
    match proj with
    | none => .hostError
    | some project =>
      match tryWorkspaceByCwd project cwd with
      | none => .failure
      | some workspace =>
        match getPath workspace.manifestRaw fname with
        | none => .failure
        | some value => .branches [termEquals fieldValue (jsString value)]
  | _, _ => .instErr

/-- `is_instantiated_list` restricted to the lists the callback consumes
(`checkArgv.toJavaScript() as string[]`): a proper list of atoms, extracted
as their texts. -/
def plListToStrings : PlTerm → Option (List String)
  | .atom "[]" => some []
  | .comp "." [.atom s, tl] => (plListToStrings tl).map (fun rest => s :: rest)
  | _ => none

/-- The native callback of `workspace_field_test/4`.  The sandboxed
evaluator (`vm.runInNewContext`) is a parameter, modelled from the spec
(§4.4: isolated evaluator over the field value and indexed extras; `none`
models a throw on a malformed expression, `some` the truthiness of the
evaluation result).  The instantiation guard runs before `getProject`. -/
def workspace_field_test4 (sandbox : String → Json → List String → Option Bool)
    (proj : Option Project)
    (workspaceCwd fieldName checkCode checkArgv : PlTerm) : NativeResult :=
  match workspaceCwd, fieldName, checkCode, plListToStrings checkArgv with
  | .atom cwd, .atom fname, .atom code, some argv =>
    match proj with
    | none => .hostError
    | some project =>
      match tryWorkspaceByCwd project cwd with
      | none => .failure
      | some workspace =>
        match getPath workspace.manifestRaw fname with
        | none => .failure
        | some value =>
          match sandbox code value argv with
          | none => .evalError
          | some true => .success
          | some false => .failure
  | _, _, _, _ => .instErr

/-- The native callback of `internal_workspace_has_dependency/4`: the guard
on path and dependency type runs first, then `getProject`, then the
non-null-asserted `getWorkspaceByCwd` (whose failure is `assertFail`). -/
def internal_workspace_has_dependency4 (proj : Option Project)
    (workspaceCwd dependencyIdent dependencyRange dependencyType : PlTerm) :
    NativeResult :=
  match workspaceCwd, dependencyType with
  | .atom cwd, .atom dtype =>
    match proj with
    | none => .hostError
    | some project =>
      match tryWorkspaceByCwd project cwd with
      | none => .assertFail
      | some workspaceInfo =>
        match manifestDeps workspaceInfo dtype with
        | none => .failure
        | some registeredDependencies =>
          match dependencyIdent with
          | .atom ident =>
              match registeredDependencies.find? (fun d => d.ident == ident) with
              | some d => .branches [termEquals dependencyRange d.range]
              | none => .failure
          | .var _ =>
              .branches (registeredDependencies.map fun d =>
                andGoal (termEquals dependencyIdent d.ident)
                        (termEquals dependencyRange d.range))
          | _ => .instErr
  | _, _ => .instErr

/-- Error channel of a query, per the spec's taxonomy (§7). -/
inductive EngErr where
  | host
  | inst
  | assertionFailed
  | evalFailed
deriving Repr, DecidableEq

/-- Outcome of solving a goal sequence: a surfaced error, or the ordered
list of solution substitutions. -/
inductive Outcome where
  | err (e : EngErr)
  | ok (sols : List Binding)
deriving Repr, DecidableEq

/-- Modelled from the spec (§4.3, goal-branching contract): the solutions, in
order, that one native-callback invocation contributes under the current
substitution `b` — each prepended goal is an alternative clause body tried in
array order, `success` a deterministic success, a plain return a failure. -/
def NativeResult.outcome : NativeResult → Binding → Outcome
  | .hostError, _ => .err .host
  | .instErr, _ => .err .inst
  | .assertFail, _ => .err .assertionFailed
  | .evalError, _ => .err .evalFailed
  | .success, b => .ok [b]
  | .failure, _ => .ok []
  | .branches gs, b => .ok (gs.flatMap (solveGoal b))

/-- Sequence a continuation over each solution in order; an error raised in
any branch surfaces as the query's error (spec §7: only domain failure is
recoverable). -/
def seqSols (f : Binding → Outcome) : List Binding → Outcome
  | [] => .ok []
  | b :: bs =>
      match f b with
      | .err e => .err e
      | .ok s =>
          match seqSols f bs with
          | .err e => .err e
          | .ok s2 => .ok (s ++ s2)

/-- Chain an outcome into a continuation (spec §4.2: conjunctions are solved
left to right, backtracking over the left goal's alternatives). -/
def Outcome.seq (o : Outcome) (f : Binding → Outcome) : Outcome :=
  match o with
  | .err e => .err e
  | .ok sols => seqSols f sols

/-- Solving the declarative goal `dependency_type(t)` under binding `b`:
the goal is unified against the three facts, in declaration order. -/
def dependencyTypeSolutions (b : Binding) (t : PlTerm) : List Binding :=
  dependencyTypeFacts.flatMap fun d => solveGoal b (termEquals t d)

/-- The public `workspace_has_dependency/4`: its single clause's body —
`workspace(W), dependency_type(T), internal_workspace_has_dependency(W,I,R,T)`
— solved left to right with the caller's terms substituted for the head
variables (the head's variables are fresh and distinct, so head unification
is argument passing).  The conjunction sequencing is modelled from the spec
(§4.2–§4.3). -/
def workspace_has_dependency4 (proj : Option Project)
    (workspaceCwd dependencyIdent dependencyRange dependencyType : PlTerm) :
    Outcome :=
  ((workspace1 proj workspaceCwd).outcome []).seq fun b1 =>
    (Outcome.ok (dependencyTypeSolutions b1 dependencyType)).seq fun b2 =>
      (internal_workspace_has_dependency4 proj
        (walkT b2 workspaceCwd) (walkT b2 dependencyIdent)
        (walkT b2 dependencyRange) (walkT b2 dependencyType)).outcome b2

/-- The argument tuples with which the pipeline of
`workspace_has_dependency4` invokes the private helper: one per solution of
`workspace(W)` and, under it, of `dependency_type(T)`, with all four caller
terms dereferenced under the accumulated substitution. -/
def internalCallArgs (p : Project)
    (workspaceCwd dependencyIdent dependencyRange dependencyType : PlTerm) :
    List (PlTerm × PlTerm × PlTerm × PlTerm) :=
  match (workspace1 (some p) workspaceCwd).outcome [] with
  | .err _ => []
  | .ok sols1 =>
      sols1.flatMap fun b1 =>
        (dependencyTypeSolutions b1 dependencyType).map fun b2 =>
          (walkT b2 workspaceCwd, walkT b2 dependencyIdent,
           walkT b2 dependencyRange, walkT b2 dependencyType)

/-- The process-wide `projects` table (a `WeakMap` keyed by session),
modelled as an association list over opaque session identities; `set`
prepends, `get` takes the most recent entry. -/
def SessionRegistry := List (Nat × Project)

/-- `linkProjectToSession`: `projects.set(session, project)`. -/
def linkProjectToSession (r : SessionRegistry) (s : Nat) (p : Project) :
    SessionRegistry :=
  ((s, p) :: r : List (Nat × Project))

/-- `projects.get(thread.session)`, the lookup performed by `getProject`. -/
def projectsGet (r : SessionRegistry) (s : Nat) : Option Project :=
  ((r : List (Nat × Project)).find? (fun e => e.1 == s)).map (fun e => e.2)

/-- General substitutions for clause-head unification (variable to term). -/
def Subst := List (String × PlTerm)

/-- Modelled from the spec (§4.1): `walk` dereferences chained bindings to
the representative term; the fuel bounds the chain length. -/
def walkS : Nat → Subst → PlTerm → PlTerm
  | 0, _, t => t
  | fuel + 1, σ, .var x =>
      match List.lookup x (σ : List (String × PlTerm)) with
      | some u => walkS fuel σ u
      | none => .var x
  | _ + 1, _, t => t

/-- Modelled from the spec (§4.1): `unify` over a worklist of term pairs —
atoms/numbers unify by value, an unbound variable binds to anything, structs
unify iff same functor and arity with corresponding arguments pushed onto the
worklist, short-circuiting on the first mismatch; the fuel bounds the total
work (no occurs-check, as documented). -/
def unifyWork : Nat → Subst → List (PlTerm × PlTerm) → Option Subst
  | 0, _, _ => none
  | _ + 1, σ, [] => some σ
  | fuel + 1, σ, (a, b) :: rest =>
      match walkS (fuel + 1) σ a, walkS (fuel + 1) σ b with
      | .var x, .var y =>
          if x = y then unifyWork fuel σ rest
          else unifyWork fuel (((x, PlTerm.var y) :: σ : List (String × PlTerm))) rest
      | .var x, t => unifyWork fuel (((x, t) :: σ : List (String × PlTerm))) rest
      | t, .var y => unifyWork fuel (((y, t) :: σ : List (String × PlTerm))) rest
      | .atom a1, .atom a2 => if a1 = a2 then unifyWork fuel σ rest else none
      | .num n1, .num n2 => if n1 = n2 then unifyWork fuel σ rest else none
      | .comp f1 as, .comp f2 bs =>
          if f1 = f2 ∧ as.length = bs.length then
            unifyWork fuel σ (as.zip bs ++ rest)
          else none
      | _, _ => none

mutual

/-- Apply a clause-head substitution: replaces each variable by its binding
(the bridge's clause bodies contain only variable leaves, so one pass is
exact). -/
def applySubst (σ : Subst) : PlTerm → PlTerm
  | .var x =>
      match List.lookup x (σ : List (String × PlTerm)) with
      | some t => t
      | none => .var x
  | .comp f args => .comp f (applySubstList σ args)
  | t => t

/-- Apply a substitution across an argument list. -/
def applySubstList (σ : Subst) : List PlTerm → List PlTerm
  | [] => []
  | t :: ts => applySubst σ t :: applySubstList σ ts

end

mutual

/-- The variables occurring in a term. -/
def varsOf : PlTerm → List String
  | .var x => [x]
  | .comp _ args => varsOfList args
  | _ => []

/-- The variables occurring in an argument list. -/
def varsOfList : List PlTerm → List String
  | [] => []
  | t :: ts => varsOf t ++ varsOfList ts

end

/-- Head of the single clause of `workspace_version/2` from the source
(variable names as written; the freshness of the engine's renaming is a
hypothesis of the theorems using it). -/
def wvHead : PlTerm :=
  .comp "workspace_version" [.var "WorkspaceCwd", .var "WorkspaceVersion"]

/-- Body of that clause:
`workspace_field(WorkspaceCwd, version, WorkspaceVersion)`. -/
def wvBody : PlTerm :=
  .comp "workspace_field" [.var "WorkspaceCwd", .atom "version",
    .var "WorkspaceVersion"]

/-- Resolving the goal `workspace_version(cwd, val)` against the clause
(spec §4.2): unify the goal with the head, then continue with the
instantiated body.  Fuel 9 covers the work arising for this clause. -/
def solveWorkspaceVersionGoal (cwd val : PlTerm) : Option PlTerm :=
  (unifyWork 9 ([] : List (String × PlTerm))
      [(wvHead, .comp "workspace_version" [cwd, val])]).map
    (fun σ => applySubst σ wvBody)

/-- Solving `workspace_version(cwd, val)` end to end: resolve through the
clause, then dispatch the resulting body goal to the native
`workspace_field/3`. -/
def solveWorkspaceVersion (proj : Option Project) (cwd val : PlTerm) :
    Option NativeResult :=
  (solveWorkspaceVersionGoal cwd val).map fun g =>
    match g with
    | .comp "workspace_field" [c, f, v] => workspace_field3 proj c f v
    | _ => .failure

/-- The spec's words for `workspace_version/2`: "Convenience alias of
`workspace_field/3` with field name fixed to version". -/
def workspace_version_specAlias (proj : Option Project) (cwd val : PlTerm) :
    NativeResult :=
  workspace_field3 proj cwd (.atom "version") val

/-! Sample data used by the witnesses. -/

/-- The runtime dependencies `{"a":"^1.0.0","b":"^2.0.0"}` of §8's example. -/
def sampleDeps : List Dependency :=
  [{ ident := "a", range := "^1.0.0" }, { ident := "b", range := "^2.0.0" }]

/-- Example workspace at `ws-a`, ident `pkg-a`. -/
def wsA : Workspace :=
  { relativeCwd := "ws-a", ident := "pkg-a",
    manifestRaw := .obj [("version", .str "1.0.0"),
      ("repository", .obj [("url", .str "r-url")])],
    dependencies := some sampleDeps,
    devDependencies := none,
    peerDependencies := some [] }

/-- Example workspace at `ws-b`, ident `pkg-b`. -/
def wsB : Workspace :=
  { relativeCwd := "ws-b", ident := "pkg-b",
    manifestRaw := .obj [("private", .bool true)],
    dependencies := none, devDependencies := none, peerDependencies := none }

/-- Example workspace at `ws-c`, sharing ident `pkg-a` with `wsA`. -/
def wsC : Workspace :=
  { relativeCwd := "ws-c", ident := "pkg-a",
    manifestRaw := .obj [],
    dependencies := none, devDependencies := none, peerDependencies := none }

/-- Example project with three workspaces in registration order. -/
def projExample : Project := ⟨[wsA, wsB, wsC]⟩

/-- A second example project, for the registry theorems. -/
def projOther : Project := ⟨[wsB]⟩

/-! Helper lemmas on goal solving. -/

/-- Solving `=(X, atom c)` for each workspace path yields exactly one
binding per workspace, in order. -/
theorem ws_enum_sols (x : String) (ws : List Workspace) :
    ((ws.map fun w => termEquals (.var x) w.relativeCwd).flatMap
        (solveGoal [])) =
      ws.map fun w => ([(x, w.relativeCwd)] : Binding) := by
  induction ws with
  | nil => rfl
  | cons w ws ih =>
      simp only [List.map_cons, List.flatMap_cons, ih]
      rfl

/-- Solving the conjunction `=(X, path), =(Y, ident)` for each workspace
yields exactly one two-entry binding per workspace, in order. -/
theorem ws_pair_sols (x y : String) (hxy : x ≠ y) (ws : List Workspace) :
    ((ws.map fun w =>
        andGoal (termEquals (.var x) w.relativeCwd)
                (termEquals (.var y) w.ident)).flatMap (solveGoal [])) =
      ws.map fun w => ([(y, w.ident), (x, w.relativeCwd)] : Binding) := by
  induction ws with
  | nil => rfl
  | cons w ws ih =>
      simp only [List.map_cons, List.flatMap_cons, ih]
      have hx : (y == x) = false := by
        simp [beq_iff_eq]
        exact fun h => hxy h.symm
      simp [solveGoal, andGoal, termEquals, walkT, List.lookup, hx, Binding]

/-- Solving the conjunction `=(I, ident), =(R, range)` for each dependency
yields exactly one two-entry binding per dependency, in order. -/
theorem dep_pair_sols (i r : String) (hir : i ≠ r) (ds : List Dependency) :
    ((ds.map fun d =>
        andGoal (termEquals (.var i) d.ident)
                (termEquals (.var r) d.range)).flatMap (solveGoal [])) =
      ds.map fun d => ([(r, d.range), (i, d.ident)] : Binding) := by
  induction ds with
  | nil => rfl
  | cons d ds ih =>
      simp only [List.map_cons, List.flatMap_cons, ih]
      have hx : (r == i) = false := by
        simp [beq_iff_eq]
        exact fun h => hir h.symm
      simp [solveGoal, andGoal, termEquals, walkT, List.lookup, hx, Binding]

/-- `dependency_type(dtype)` has exactly the solution that leaves the
binding unchanged whenever `dtype` is a partition the manifest indexes. -/
theorem dtypeSols_of_manifestDeps (w : Workspace) (deps : List Dependency)
    (dtype : String) (hd : manifestDeps w dtype = some deps) :
    dependencyTypeSolutions [] (.atom dtype) = [([] : Binding)] := by
  by_cases h1 : dtype = "dependencies"
  · subst h1; decide
  · by_cases h2 : dtype = "devDependencies"
    · subst h2; decide
    · by_cases h3 : dtype = "peerDependencies"
      · subst h3; decide
      · exfalso
        simp [manifestDeps, h1, h2, h3] at hd

/-! Claim C1. -/

/-- C1: `workspace/1` with an unbound variable argument, on a session bound
to a project, yields exactly one solution per workspace of the project,
binding the argument to that workspace's relative path, in the project's own
registration order; when the registered paths are distinct (as a project's
workspace paths are), the solutions carry no duplicates. -/
theorem workspace1_unbound_enumerates_workspaces (p : Project) (x : String)
    (hnd : (p.workspaces.map Workspace.relativeCwd).Nodup) :
    (workspace1 (some p) (.var x)).outcome [] =
      .ok (p.workspaces.map fun w => ([(x, w.relativeCwd)] : Binding))
    ∧ (p.workspaces.map fun w => ([(x, w.relativeCwd)] : Binding)).Nodup := by
  constructor
  · simp only [workspace1, NativeResult.outcome]
    rw [ws_enum_sols]
  · have hmm : (p.workspaces.map fun w => ([(x, w.relativeCwd)] : Binding)) =
        (p.workspaces.map Workspace.relativeCwd).map
          (fun c => ([(x, c)] : Binding)) := by
      rw [List.map_map]
      rfl
    rw [hmm]
    refine hnd.map ?_
    intro a b h
    simpa [Binding] using h

/-- Witness for C1 at the three-workspace example project. -/
theorem workspace1_unbound_enumerates_workspaces_witness :
    (workspace1 (some projExample) (.var "X")).outcome [] =
      .ok (projExample.workspaces.map fun w => ([("X", w.relativeCwd)] : Binding))
    ∧ (projExample.workspaces.map fun w =>
        ([("X", w.relativeCwd)] : Binding)).Nodup :=
  workspace1_unbound_enumerates_workspaces projExample "X" (by decide)

/-! Claim C2. -/

/-- C2: for a workspace bound by path and a bound dependency-type atom that
its manifest indexes, `workspace_has_dependency/4` with the
dependency-identifier argument an unbound variable yields exactly one
solution per dependency declared under that type, binding the identifier and
range arguments to that dependency's identifier and version range, in
declaration order. -/
theorem workspace_has_dependency4_enumerates_deps (p : Project)
    (cwd dtype i r : String) (w : Workspace) (deps : List Dependency)
    (hw : tryWorkspaceByCwd p cwd = some w)
    (hd : manifestDeps w dtype = some deps)
    (hir : i ≠ r) :
    workspace_has_dependency4 (some p) (.atom cwd) (.var i) (.var r)
        (.atom dtype) =
      .ok (deps.map fun d => ([(r, d.range), (i, d.ident)] : Binding)) := by
  have h1 : workspace1 (some p) (.atom cwd) = .success := by
    simp [workspace1, hw]
  simp only [workspace_has_dependency4, h1, NativeResult.outcome, Outcome.seq,
    seqSols, dtypeSols_of_manifestDeps w deps dtype hd]
  simp only [walkT]
  simp only [internal_workspace_has_dependency4, hw, hd, NativeResult.outcome]
  simp only [List.append_nil]
  exact congrArg Outcome.ok (dep_pair_sols i r hir deps)

/-- Witness for C2: the §8 example — dependencies `{"a":"^1.0.0","b":"^2.0.0"}`
give exactly the two solutions `(a, ^1.0.0)` then `(b, ^2.0.0)`. -/
theorem workspace_has_dependency4_enumerates_deps_witness :
    workspace_has_dependency4 (some projExample) (.atom "ws-a") (.var "I")
        (.var "R") (.atom "dependencies") =
      .ok [[("R", "^1.0.0"), ("I", "a")], [("R", "^2.0.0"), ("I", "b")]] :=
  (workspace_has_dependency4_enumerates_deps projExample "ws-a" "dependencies"
      "I" "R" wsA sampleDeps rfl rfl (by decide)).trans (by decide)

/-! Claim C3. -/

/-- C3: `workspace_ident/2` with both arguments distinct unbound variables
yields exactly one solution per workspace of the bound project, binding the
pair (relative path, stringified identifier); with the identifier bound and
the path unbound it yields exactly one solution per workspace sharing that
identifier (`k` solutions for `k` sharers). -/
theorem workspace_ident2_enumeration (p : Project) (x y s : String)
    (hxy : x ≠ y) :
    (workspace_ident2 (some p) (.var x) (.var y)).outcome [] =
      .ok (p.workspaces.map fun w =>
        ([(y, w.ident), (x, w.relativeCwd)] : Binding))
    ∧ (workspace_ident2 (some p) (.var x) (.atom s)).outcome [] =
      .ok ((p.workspaces.filter fun w => w.ident == s).map
        fun w => ([(x, w.relativeCwd)] : Binding)) := by
  constructor
  · simp only [workspace_ident2, NativeResult.outcome]
    rw [ws_pair_sols x y hxy]
  · simp only [workspace_ident2, workspacesByIdent]
    cases hf : p.workspaces.filter (fun w => w.ident == s) with
    | nil => simp [NativeResult.outcome]
    | cons a l =>
        simp only [NativeResult.outcome]
        rw [ws_enum_sols]

/-- Witness for C3: both-unbound enumeration over the example project, and
the bound ident `pkg-a` shared by the two workspaces `ws-a` and `ws-c`. -/
theorem workspace_ident2_enumeration_witness :
    (workspace_ident2 (some projExample) (.var "X") (.var "Y")).outcome [] =
      .ok (projExample.workspaces.map fun w =>
        ([("Y", w.ident), ("X", w.relativeCwd)] : Binding))
    ∧ (workspace_ident2 (some projExample) (.var "X")
        (.atom "pkg-a")).outcome [] =
      .ok ((projExample.workspaces.filter fun w => w.ident == "pkg-a").map
        fun w => ([("X", w.relativeCwd)] : Binding)) :=
  workspace_ident2_enumeration projExample "X" "Y" "pkg-a" (by decide)

/-! Claim C5. -/

/-- C5: `workspace_field/3` with bound path and field name: a missing
workspace or a missing (dotted) field yields a plain failure (zero
solutions, no error of any kind); a present field yields exactly one
solution binding the value argument to the field's string form. -/
theorem workspace_field3_absence_and_presence (p : Project) (c f v : String) :
    (tryWorkspaceByCwd p c = none →
      workspace_field3 (some p) (.atom c) (.atom f) (.var v) = .failure)
    ∧ (∀ w, tryWorkspaceByCwd p c = some w → getPath w.manifestRaw f = none →
      workspace_field3 (some p) (.atom c) (.atom f) (.var v) = .failure)
    ∧ (∀ w jv, tryWorkspaceByCwd p c = some w →
      getPath w.manifestRaw f = some jv →
      workspace_field3 (some p) (.atom c) (.atom f) (.var v) =
        .branches [termEquals (.var v) (jsString jv)]
      ∧ (workspace_field3 (some p) (.atom c) (.atom f) (.var v)).outcome [] =
        .ok [([(v, jsString jv)] : Binding)]) := by
  refine ⟨fun h => by simp [workspace_field3, h],
    fun w hw hf => by simp [workspace_field3, hw, hf],
    fun w jv hw hf => ⟨by simp [workspace_field3, hw, hf], ?_⟩⟩
  simp [workspace_field3, hw, hf, NativeResult.outcome, solveGoal, termEquals,
    walkT, Binding]

/-- Witness for C5: missing workspace, missing field, and the present dotted
field `repository.url` of the example workspace. -/
theorem workspace_field3_absence_and_presence_witness :
    workspace_field3 (some projExample) (.atom "nope") (.atom "version")
        (.var "V") = .failure
    ∧ workspace_field3 (some projExample) (.atom "ws-a") (.atom "absent.key")
        (.var "V") = .failure
    ∧ workspace_field3 (some projExample) (.atom "ws-a")
        (.atom "repository.url") (.var "V") =
      .branches [termEquals (.var "V") (jsString (.str "r-url"))] :=
  ⟨(workspace_field3_absence_and_presence projExample "nope" "version" "V").1
      rfl,
   (workspace_field3_absence_and_presence projExample "ws-a" "absent.key"
      "V").2.1 wsA rfl rfl,
   ((workspace_field3_absence_and_presence projExample "ws-a" "repository.url"
      "V").2.2 wsA (.str "r-url") rfl rfl).1⟩

/-! Claim C4. -/

/-- C4 counterexample: a partially built compound passed as the
dependency-type argument of `workspace_has_dependency/4` (path bound to an
existing workspace, ident and range unbound) does NOT raise an instantiation
error — the clause's `dependency_type/1` goal simply finds no matching fact,
so the call merely yields zero solutions. -/
theorem workspace_has_dependency4_compound_dtype_silent :
    workspace_has_dependency4 (some projExample) (.atom "ws-a") (.var "I")
        (.var "R") (.comp "f" [.var "X"]) = .ok [] := by decide

/-- C4 (amended): a partially built compound where an atom/variable is
required raises an instantiation error for every guarded argument —
`workspace_ident/2` (either argument), `workspace_field/3` (path or field
name), the path argument of `workspace_has_dependency/4` (via `workspace/1`),
and the path/type arguments of the private helper — EXCEPT the
dependency-type argument of the public `workspace_has_dependency/4`: there
the compound merely unifies with none of the `dependency_type/1` facts and
the call fails silently with zero solutions. -/
theorem compound_argument_instantiation (p : Project) (fn : String)
    (args : List PlTerm) (t u : PlTerm) :
    workspace_ident2 (some p) (.comp fn args) t = .instErr
    ∧ (∀ c : String,
        workspace_ident2 (some p) (.atom c) (.comp fn args) = .instErr)
    ∧ (∀ pr : Option Project,
        workspace_field3 pr (.comp fn args) t u = .instErr)
    ∧ (∀ (pr : Option Project) (c : String),
        workspace_field3 pr (.atom c) (.comp fn args) u = .instErr)
    ∧ workspace_has_dependency4 (some p) (.comp fn args) t u
        (.var "T") = .err .inst
    ∧ (∀ pr : Option Project,
        internal_workspace_has_dependency4 pr (.comp fn args) t u
          (.atom "dependencies") = .instErr)
    ∧ (∀ (pr : Option Project) (c : String),
        internal_workspace_has_dependency4 pr (.atom c) t u
          (.comp fn args) = .instErr)
    ∧ (∀ c : String,
        workspace_has_dependency4 (some p) (.atom c) t u
          (.comp fn args) = .ok []) := by
  refine ⟨rfl, fun c => rfl, fun pr => rfl, ?_, rfl, fun pr => rfl,
    fun pr c => rfl, ?_⟩
  · intro pr c
    cases pr <;> rfl
  · intro c
    have hsolve : ∀ b : Binding,
        dependencyTypeSolutions b (.comp fn args) = [] := by
      intro b
      simp [dependencyTypeSolutions, dependencyTypeFacts, solveGoal,
        termEquals, walkT]
    simp only [workspace_has_dependency4]
    by_cases hw : (tryWorkspaceByCwd p c).isSome
    · simp [workspace1, hw, NativeResult.outcome, Outcome.seq, seqSols,
        hsolve]
    · simp [workspace1, hw, NativeResult.outcome, Outcome.seq, seqSols]

/-- Witness for the amended C4 at concrete arguments. -/
theorem compound_argument_instantiation_witness :
    workspace_ident2 (some projExample) (.comp "f" [.var "X"])
        (.var "Y") = .instErr
    ∧ workspace_field3 (some projExample) (.comp "f" [.var "X"]) (.var "Y")
        (.var "Z") = .instErr
    ∧ workspace_has_dependency4 (some projExample) (.atom "ws-a") (.var "Y")
        (.var "Z") (.comp "f" [.var "X"]) = .ok [] :=
  ⟨(compound_argument_instantiation projExample "f" [.var "X"] (.var "Y")
      (.var "Z")).1,
   (compound_argument_instantiation projExample "f" [.var "X"] (.var "Y")
      (.var "Z")).2.2.1 (some projExample),
   (compound_argument_instantiation projExample "f" [.var "X"] (.var "Y")
      (.var "Z")).2.2.2.2.2.2.2 "ws-a"⟩

/-! Claim C6. -/

/-- C6 counterexample: `workspace_field/3` checks its instantiation guard
BEFORE consulting the session registry, so on a session with no bound
project and a non-atom path argument it raises an instantiation error, not
the host-binding assertion. -/
theorem workspace_field3_unbound_session_not_hostError :
    workspace_field3 none (.var "X") (.var "F") (.var "V") = .instErr
    ∧ NativeResult.instErr ≠ NativeResult.hostError := by
  constructor
  · rfl
  · decide

/-- C6 (amended): on a session with no bound project every native predicate
raises an error, never a silent domain failure or a success: `workspace/1`
and `workspace_ident/2` raise the host-binding assertion regardless of their
arguments, while `workspace_field/3`, `workspace_field_test/4` and
`internal_workspace_has_dependency/4` raise it whenever their instantiation
guards pass, and raise an instantiation error instead when the guards
fail. -/
theorem native_predicates_unbound_session (t u v w : PlTerm)
    (sandbox : String → Json → List String → Option Bool) :
    workspace1 none t = .hostError
    ∧ workspace_ident2 none t u = .hostError
    ∧ (workspace_field3 none t u v = .hostError
        ∨ workspace_field3 none t u v = .instErr)
    ∧ (isAtom t = true → isAtom u = true →
        workspace_field3 none t u v = .hostError)
    ∧ (workspace_field_test4 sandbox none t u v w = .hostError
        ∨ workspace_field_test4 sandbox none t u v w = .instErr)
    ∧ (isAtom t = true → isAtom u = true → isAtom v = true →
        (plListToStrings w).isSome = true →
        workspace_field_test4 sandbox none t u v w = .hostError)
    ∧ (internal_workspace_has_dependency4 none t u v w = .hostError
        ∨ internal_workspace_has_dependency4 none t u v w = .instErr)
    ∧ (isAtom t = true → isAtom w = true →
        internal_workspace_has_dependency4 none t u v w = .hostError) := by
  refine ⟨rfl, rfl, ?_, ?_, ?_, ?_, ?_, ?_⟩
  · cases t <;> cases u <;> simp [workspace_field3]
  · intro ht hu
    cases t <;> simp [isAtom] at ht
    cases u <;> simp [isAtom] at hu
    rfl
  · cases t <;> cases u <;> cases v <;>
      cases hw : plListToStrings w <;>
      simp [workspace_field_test4, hw]
  · intro ht hu hv hl
    cases t <;> simp [isAtom] at ht
    cases u <;> simp [isAtom] at hu
    cases v <;> simp [isAtom] at hv
    obtain ⟨argv, hargs⟩ := Option.isSome_iff_exists.mp hl
    simp [workspace_field_test4, hargs]
  · cases t <;> cases w <;> simp [internal_workspace_has_dependency4]
  · intro ht hw
    cases t <;> simp [isAtom] at ht
    cases w <;> simp [isAtom] at hw
    rfl

/-- Witness for the amended C6 at concrete arguments. -/
theorem native_predicates_unbound_session_witness :
    workspace1 none (.atom "ws-a") = .hostError
    ∧ workspace_field3 none (.atom "ws-a") (.atom "version") (.var "V") =
        .hostError :=
  ⟨(native_predicates_unbound_session (.atom "ws-a") (.atom "version")
      (.var "V") (.atom "[]") (fun _ _ _ => some true)).1,
   (native_predicates_unbound_session (.atom "ws-a") (.atom "version")
      (.var "V") (.atom "[]") (fun _ _ _ => some true)).2.2.2.1 rfl rfl⟩

/-! Claim C7. -/

/-- Linking other sessions never disturbs an existing association. -/
theorem projectsGet_foldl_links (s : Nat) (p : Project)
    (ops : List (Nat × Project)) :
    ∀ acc : SessionRegistry, projectsGet acc s = some p →
      (∀ e ∈ ops, e.1 ≠ s) →
      projectsGet (ops.foldl (fun a e => linkProjectToSession a e.1 e.2) acc)
        s = some p := by
  induction ops with
  | nil => intro acc h _; simpa using h
  | cons e ops ih =>
      intro acc h hops
      simp only [List.foldl_cons]
      refine ih _ ?_ (fun e' he' => hops e' (List.mem_cons_of_mem _ he'))
      have he : (e.1 == s) = false := by
        simp [beq_iff_eq]
        exact hops e (List.mem_cons_self _ _)
      simp only [projectsGet, linkProjectToSession, List.find?] at h ⊢
      rw [he]
      exact h

/-- C7: the session registry associates a session with the project
installed by `linkProjectToSession`, and — since the only write the module
ever performs is that initial link, and lookups do not mutate — any sequence
of links for other sessions leaves every later lookup of this session
returning that same project. -/
theorem linkProjectToSession_set_once (r : SessionRegistry) (s : Nat)
    (p : Project) (ops : List (Nat × Project))
    (hops : ∀ e ∈ ops, e.1 ≠ s) :
    projectsGet (linkProjectToSession r s p) s = some p
    ∧ projectsGet (ops.foldl (fun a e => linkProjectToSession a e.1 e.2)
        (linkProjectToSession r s p)) s = some p := by
  have h0 : projectsGet (linkProjectToSession r s p) s = some p := by
    simp [projectsGet, linkProjectToSession, List.find?]
  exact ⟨h0, projectsGet_foldl_links s p ops _ h0 hops⟩

/-- Witness for C7: link session 0, then link a different session; lookups
of session 0 still return the original project. -/
theorem linkProjectToSession_set_once_witness :
    projectsGet (linkProjectToSession ([] : SessionRegistry) 0 projExample)
        0 = some projExample
    ∧ projectsGet ([(1, projOther)].foldl
        (fun a e => linkProjectToSession a e.1 e.2)
        (linkProjectToSession ([] : SessionRegistry) 0 projExample)) 0 =
      some projExample :=
  linkProjectToSession_set_once [] 0 projExample [(1, projOther)]
    (by decide)

/-! Claim C8. -/

/-- C8: `workspace_field_test/4` with bound path, field name, check
expression and instantiated extras list: a truthy evaluation succeeds, a
falsy one fails silently, a missing workspace or field fails silently, and a
malformed expression (evaluator throw) surfaces as an evaluation error
distinct from silent failure. -/
theorem workspace_field_test4_outcomes
    (sandbox : String → Json → List String → Option Bool) (p : Project)
    (c f code : String) (argv : PlTerm) (args : List String)
    (hargv : plListToStrings argv = some args) :
    (tryWorkspaceByCwd p c = none →
      workspace_field_test4 sandbox (some p) (.atom c) (.atom f) (.atom code)
        argv = .failure)
    ∧ (∀ w, tryWorkspaceByCwd p c = some w →
      getPath w.manifestRaw f = none →
      workspace_field_test4 sandbox (some p) (.atom c) (.atom f) (.atom code)
        argv = .failure)
    ∧ (∀ w jv, tryWorkspaceByCwd p c = some w →
      getPath w.manifestRaw f = some jv →
      (sandbox code jv args = some true →
        workspace_field_test4 sandbox (some p) (.atom c) (.atom f)
          (.atom code) argv = .success)
      ∧ (sandbox code jv args = some false →
        workspace_field_test4 sandbox (some p) (.atom c) (.atom f)
          (.atom code) argv = .failure)
      ∧ (sandbox code jv args = none →
        workspace_field_test4 sandbox (some p) (.atom c) (.atom f)
          (.atom code) argv = .evalError)) := by
  refine ⟨fun h => by simp [workspace_field_test4, hargv, h],
    fun w hw hf => by simp [workspace_field_test4, hargv, hw, hf],
    fun w jv hw hf => ⟨fun hs => ?_, fun hs => ?_, fun hs => ?_⟩⟩ <;>
  simp [workspace_field_test4, hargv, hw, hf, hs]

/-- Witness for C8: a sandbox that evaluates `"tt"` to true, `"ff"` to
false, and throws on anything else, over the example workspace's `version`
field. -/
theorem workspace_field_test4_outcomes_witness :
    workspace_field_test4
      (fun code _ _ => if code = "tt" then some true
        else if code = "ff" then some false else none)
      (some projExample) (.atom "ws-a") (.atom "version") (.atom "tt")
      (.atom "[]") = .success
    ∧ workspace_field_test4
      (fun code _ _ => if code = "tt" then some true
        else if code = "ff" then some false else none)
      (some projExample) (.atom "ws-a") (.atom "version") (.atom "boom")
      (.atom "[]") = .evalError :=
  ⟨((workspace_field_test4_outcomes
      (fun code _ _ => if code = "tt" then some true
        else if code = "ff" then some false else none)
      projExample "ws-a" "version" "tt" (.atom "[]") [] rfl).2.2 wsA
      (.str "1.0.0") rfl rfl).1 rfl,
   ((workspace_field_test4_outcomes
      (fun code _ _ => if code = "tt" then some true
        else if code = "ff" then some false else none)
      projExample "ws-a" "version" "boom" (.atom "[]") [] rfl).2.2 wsA
      (.str "1.0.0") rfl rfl).2.2 rfl⟩

/-! Claim C9. -/

/-- Resolving `workspace_version(cwd, val)` against the source's clause
instantiates the body to `workspace_field(cwd, version, val)` exactly, for
every pair of caller terms not mentioning the clause's (fresh) head
variables at top level. -/
theorem solveWVGoal_eq (cwd val : PlTerm)
    (h1 : cwd ≠ .var "WorkspaceCwd") (h2 : cwd ≠ .var "WorkspaceVersion")
    (h3 : val ≠ .var "WorkspaceCwd") (h4 : val ≠ .var "WorkspaceVersion") :
    solveWorkspaceVersionGoal cwd val =
      some (.comp "workspace_field" [cwd, .atom "version", val]) := by
  have c1 : ("WorkspaceVersion" == "WorkspaceCwd") = false := by decide
  have c2 : ("WorkspaceCwd" == "WorkspaceVersion") = false := by decide
  cases cwd with
  | var y =>
      have hy : ¬ ("WorkspaceCwd" = y) := fun h => h1 (by rw [h])
      cases val with
      | var z =>
          have hz : ¬ ("WorkspaceVersion" = z) := fun h => h4 (by rw [h])
          have hzb : (z == "WorkspaceCwd") = false := by
            simp [beq_iff_eq]
            exact fun h => h3 (by rw [h])
          simp [solveWorkspaceVersionGoal, unifyWork, walkS, wvHead, wvBody,
            applySubst, applySubstList, List.lookup, hy, hz, hzb, c1, c2]
      | atom b =>
          simp [solveWorkspaceVersionGoal, unifyWork, walkS, wvHead, wvBody,
            applySubst, applySubstList, List.lookup, hy, c1, c2]
      | comp g bs =>
          simp [solveWorkspaceVersionGoal, unifyWork, walkS, wvHead, wvBody,
            applySubst, applySubstList, List.lookup, hy, c1, c2]
      | num m =>
          simp [solveWorkspaceVersionGoal, unifyWork, walkS, wvHead, wvBody,
            applySubst, applySubstList, List.lookup, hy, c1, c2]
  | atom a =>
      cases val with
      | var z =>
          have hz : ¬ ("WorkspaceVersion" = z) := fun h => h4 (by rw [h])
          have hzb : (z == "WorkspaceCwd") = false := by
            simp [beq_iff_eq]
            exact fun h => h3 (by rw [h])
          simp [solveWorkspaceVersionGoal, unifyWork, walkS, wvHead, wvBody,
            applySubst, applySubstList, List.lookup, hz, hzb, c1, c2]
      | atom b => rfl
      | comp g bs => rfl
      | num m => rfl
  | comp f as =>
      cases val with
      | var z =>
          have hz : ¬ ("WorkspaceVersion" = z) := fun h => h4 (by rw [h])
          have hzb : (z == "WorkspaceCwd") = false := by
            simp [beq_iff_eq]
            exact fun h => h3 (by rw [h])
          simp [solveWorkspaceVersionGoal, unifyWork, walkS, wvHead, wvBody,
            applySubst, applySubstList, List.lookup, hz, hzb, c1, c2]
      | atom b => rfl
      | comp g bs => rfl
      | num m => rfl
  | num n =>
      cases val with
      | var z =>
          have hz : ¬ ("WorkspaceVersion" = z) := fun h => h4 (by rw [h])
          have hzb : (z == "WorkspaceCwd") = false := by
            simp [beq_iff_eq]
            exact fun h => h3 (by rw [h])
          simp [solveWorkspaceVersionGoal, unifyWork, walkS, wvHead, wvBody,
            applySubst, applySubstList, List.lookup, hz, hzb, c1, c2]
      | atom b => rfl
      | comp g bs => rfl
      | num m => rfl

/-- C9: solving `workspace_version(cwd, val)` — resolution through the
source's single clause followed by dispatch of the instantiated body to the
native `workspace_field/3` — behaves exactly as the spec's alias,
`workspace_field/3` with the field name fixed to "version", for every pair
of caller terms fresh with respect to the clause's renamed head variables. -/
theorem workspace_version_aliases_field (proj : Option Project)
    (cwd val : PlTerm)
    (h1 : cwd ≠ .var "WorkspaceCwd") (h2 : cwd ≠ .var "WorkspaceVersion")
    (h3 : val ≠ .var "WorkspaceCwd") (h4 : val ≠ .var "WorkspaceVersion") :
    solveWorkspaceVersion proj cwd val =
      some (workspace_version_specAlias proj cwd val) := by
  rw [solveWorkspaceVersion, solveWVGoal_eq cwd val h1 h2 h3 h4]
  rfl

/-- Witness for C9 at a bound path and unbound value variable. -/
theorem workspace_version_aliases_field_witness :
    solveWorkspaceVersion (some projExample) (.atom "ws-a") (.var "V") =
      some (workspace_version_specAlias (some projExample) (.atom "ws-a")
        (.var "V")) :=
  workspace_version_aliases_field (some projExample) (.atom "ws-a")
    (.var "V") (by decide) (by decide) (by decide) (by decide)

/-! Claim C10. -/

/-- Every solution of an `=(t, atom s)` goal dereferences `t` to that atom,
and extends the incoming binding by at most one fresh entry. -/
theorem solveEq_mem (b : Binding) (t : PlTerm) (s : String) (b' : Binding)
    (h : b' ∈ solveGoal b (termEquals t s)) :
    walkT b' t = .atom s
    ∧ (b' = b ∨ ∃ z,
        List.lookup z (b : List (String × String)) = none
        ∧ b' = ((z, s) :: b : List (String × String))) := by
  cases t with
  | atom a =>
      simp only [solveGoal, termEquals, walkT] at h
      by_cases ha : a = s
      · subst ha
        simp at h
        subst h
        exact ⟨rfl, Or.inl rfl⟩
      · simp [ha] at h
  | var z =>
      simp only [solveGoal, termEquals, walkT] at h
      cases hl : List.lookup z (b : List (String × String)) with
      | some u =>
          rw [hl] at h
          by_cases hu : u = s
          · subst hu
            simp at h
            subst h
            simp [walkT, hl]
          · simp [hu] at h
      | none =>
          rw [hl] at h
          simp at h
          subst h
          refine ⟨?_, Or.inr ⟨z, hl, rfl⟩⟩
          simp [walkT, List.lookup]
  | comp f as => simp [solveGoal, termEquals, walkT] at h
  | num n => simp [solveGoal, termEquals, walkT] at h

/-- Extending a binding with a key unbound in it preserves every existing
dereference to an atom. -/
theorem walkT_extend (b : Binding) (z s : String)
    (hz : List.lookup z (b : List (String × String)) = none)
    (t : PlTerm) (a : String) (h : walkT b t = .atom a) :
    walkT ((z, s) :: b : List (String × String)) t = .atom a := by
  cases t with
  | atom x => exact h
  | var y =>
      simp only [walkT] at h ⊢
      cases hl : List.lookup y (b : List (String × String)) with
      | none => rw [hl] at h; exact absurd h (by simp)
      | some u =>
          rw [hl] at h
          have hyz : (y == z) = false := by
            simp [beq_iff_eq]
            intro hyz
            rw [hyz, hz] at hl
            exact Option.noConfusion hl
          simp only [List.lookup, hyz, hl]
          exact h
  | comp f as => exact absurd h (by simp [walkT])
  | num n => exact absurd h (by simp [walkT])

/-- Every solution of the `dependency_type(t)` goal dereferences `t` to one
of the three partition atoms, extending the binding by at most one fresh
entry. -/
theorem dtypeSols_mem (b : Binding) (t : PlTerm) (b2 : Binding)
    (h : b2 ∈ dependencyTypeSolutions b t) :
    (∃ s ∈ dependencyTypeFacts, walkT b2 t = .atom s)
    ∧ (b2 = b ∨ ∃ z s,
        List.lookup z (b : List (String × String)) = none
        ∧ b2 = ((z, s) :: b : List (String × String))) := by
  unfold dependencyTypeSolutions at h
  rw [List.mem_flatMap] at h
  obtain ⟨s, hs, hmem⟩ := h
  obtain ⟨hwalk, hext⟩ := solveEq_mem b t s b2 hmem
  exact ⟨⟨s, hs, hwalk⟩,
    hext.elim Or.inl (fun ⟨z, hzl, hzb⟩ => Or.inr ⟨z, s, hzl, hzb⟩)⟩

/-- A workspace's own relative path always looks up to some workspace. -/
theorem tryWorkspaceByCwd_isSome_of_mem (p : Project) (w : Workspace)
    (h : w ∈ p.workspaces) : (tryWorkspaceByCwd p w.relativeCwd).isSome := by
  unfold tryWorkspaceByCwd
  rw [List.find?_isSome]
  exact ⟨w, h, by simp⟩

/-- Every solution of a `workspace(cwd)` call dereferences `cwd` to an atom
naming an existing workspace of the project. -/
theorem workspace1_sols_mem (p : Project) (cwd : PlTerm)
    (sols : List Binding) (b1 : Binding)
    (hout : (workspace1 (some p) cwd).outcome [] = .ok sols)
    (hmem : b1 ∈ sols) :
    ∃ a, walkT b1 cwd = .atom a ∧ (tryWorkspaceByCwd p a).isSome := by
  cases cwd with
  | atom a =>
      by_cases hsome : (tryWorkspaceByCwd p a).isSome
      · simp only [workspace1, hsome, if_true, NativeResult.outcome] at hout
        cases hout
        simp at hmem
        subst hmem
        exact ⟨a, rfl, hsome⟩
      · simp only [workspace1, hsome, if_false, NativeResult.outcome] at hout
        cases hout
        simp at hmem
  | var x =>
      simp only [workspace1, NativeResult.outcome] at hout
      rw [ws_enum_sols] at hout
      cases hout
      rw [List.mem_map] at hmem
      obtain ⟨w, hw, hb1⟩ := hmem
      subst hb1
      refine ⟨w.relativeCwd, ?_, tryWorkspaceByCwd_isSome_of_mem p w hw⟩
      simp [walkT, List.lookup]
  | comp f as => simp [workspace1, NativeResult.outcome] at hout
  | num n => simp [workspace1, NativeResult.outcome] at hout

/-- C10: through the public `workspace_has_dependency/4`, the private helper
is only ever invoked with its path argument a bound atom naming an existing
workspace and its dependency-type argument a bound atom naming one of the
three fixed partitions — so the helper's head instantiation guard cannot
fire, the non-null workspace lookup cannot fail, and (whenever the ident
argument is an atom or a variable, as the public clause passes through) the
helper never raises an instantiation error. -/
theorem internal_helper_guard_unreachable (p : Project)
    (cwd ident range dtype c i r d : PlTerm)
    (hmem : (c, i, r, d) ∈ internalCallArgs p cwd ident range dtype) :
    (∃ a, c = .atom a ∧ (tryWorkspaceByCwd p a).isSome)
    ∧ (∃ s, d = .atom s ∧ s ∈ dependencyTypeFacts)
    ∧ internal_workspace_has_dependency4 (some p) c i r d ≠ .assertFail
    ∧ ((isAtom i = true ∨ isVariable i = true) →
        internal_workspace_has_dependency4 (some p) c i r d ≠ .instErr) := by
  unfold internalCallArgs at hmem
  cases hout : (workspace1 (some p) cwd).outcome [] with
  | err e => rw [hout] at hmem; simp at hmem
  | ok sols1 =>
      rw [hout] at hmem
      rw [List.mem_flatMap] at hmem
      obtain ⟨b1, hb1, hmem⟩ := hmem
      rw [List.mem_map] at hmem
      obtain ⟨b2, hb2, htup⟩ := hmem
      obtain ⟨a, hwalk1, hsome⟩ := workspace1_sols_mem p cwd sols1 b1 hout hb1
      obtain ⟨⟨s, hs, hwalkd⟩, hext⟩ := dtypeSols_mem b1 dtype b2 hb2
      have hwalk2 : walkT b2 cwd = .atom a := by
        rcases hext with rfl | ⟨z, s', hzl, rfl⟩
        · exact hwalk1
        · exact walkT_extend b1 z s' hzl cwd a hwalk1
      rw [Prod.mk.injEq, Prod.mk.injEq, Prod.mk.injEq] at htup
      obtain ⟨hc, hi, hr, hd⟩ := htup
      subst hc
      subst hi
      subst hr
      subst hd
      rw [hwalk2, hwalkd]
      obtain ⟨w', hw'⟩ := Option.isSome_iff_exists.mp hsome
      refine ⟨⟨a, rfl, hsome⟩, ⟨s, rfl, hs⟩, ?_, ?_⟩
      · simp only [internal_workspace_has_dependency4, hw']
        cases manifestDeps w' s with
        | none => simp
        | some deps =>
            cases walkT b2 ident with
            | atom di =>
                cases hfd : deps.find? (fun dd => dd.ident == di) <;>
                  simp [hfd]
            | var z => simp
            | comp f as => simp
            | num n => simp
      · intro hshape
        simp only [internal_workspace_has_dependency4, hw']
        cases manifestDeps w' s with
        | none => simp
        | some deps =>
            cases hiw : walkT b2 ident with
            | atom di =>
                cases hfd : deps.find? (fun dd => dd.ident == di) <;>
                  simp [hfd]
            | var z => simp
            | comp f as => rw [hiw] at hshape; simp [isAtom, isVariable] at hshape
            | num n => rw [hiw] at hshape; simp [isAtom, isVariable] at hshape

/-- Witness for C10: a concrete tuple produced by the public pipeline on the
example project, with every argument initially unbound. -/
theorem internal_helper_guard_unreachable_witness :
    (∃ a, (PlTerm.atom "ws-a") = .atom a ∧
      (tryWorkspaceByCwd projExample a).isSome)
    ∧ (∃ s, (PlTerm.atom "dependencies") = .atom s ∧
        s ∈ dependencyTypeFacts)
    ∧ internal_workspace_has_dependency4 (some projExample) (.atom "ws-a")
        (.var "I") (.var "R") (.atom "dependencies") ≠ .assertFail
    ∧ ((isAtom (.var "I") = true ∨ isVariable (.var "I") = true) →
        internal_workspace_has_dependency4 (some projExample) (.atom "ws-a")
          (.var "I") (.var "R") (.atom "dependencies") ≠ .instErr) :=
  internal_helper_guard_unreachable projExample (.var "X") (.var "I")
    (.var "R") (.var "T") (.atom "ws-a") (.var "I") (.var "R")
    (.atom "dependencies") (by decide)
